import Mathlib

/-!
Verification of the deja scope-aware memory engine.

This file gives a shallow embedding of the core logic of the repository:
the scope resolver `filterScopesByPriority`, the memory-engine operations
`query`, `inject`, `learn`, `deleteLearning`, the secret lookup
`getSecret` (all from src/do/DejaDO.ts), the HTTP-level validation of
`handleLearn` (from src/index.ts), and the retention sweep `cleanup`
(from src/cleanup.ts).  JavaScript numbers are modelled as exact
rationals, timestamps as integer milliseconds, and the external
collaborators (embedding provider, vector index, record store) as an
explicit environment record.  Each theorem settles one claim about the
program.
-/

namespace Deja

/-- Model of the JavaScript `String.prototype.startsWith`. -/
def strStartsWith (s p : String) : Bool := p.data.isPrefixOf s.data

/-- A Learning record as stored in the record store (table `learnings`).
Fields follow the `Learning` interface of DejaDO.ts; `createdAt` is the
timestamp in integer milliseconds, `confidence` an exact rational. -/
structure Learning where
  id : String
  trigger : String
  learning : String
  reason : Option String
  confidence : ℚ
  source : Option String
  scope : String
  embedding : Option (List ℚ)
  createdAt : Int
  deriving Repr, DecidableEq

/-- A Secret record as stored in the record store (table `secrets`). -/
structure Secret where
  name : String
  value : String
  scope : String
  createdAt : Int
  updatedAt : Int
  deriving Repr, DecidableEq

/-- One match returned by the vector index: an id and a similarity score. -/
structure VMatch where
  id : String
  score : ℚ
  deriving Repr

/-- The environment a memory-engine operation runs in: the external
embedding provider and vector index (both fallible, `none` models a
thrown error), the current contents of the record store, the ids held by
the vector index, and a failure injector for the per-hit
confidence-reinforcement write of `inject`. -/
structure MemEnv where
  embed : String → Option (List ℚ)
  vquery : List ℚ → Nat → Option (List VMatch)
  learnings : List Learning
  secrets : List Secret
  vectorIds : List String
  bumpFails : String → Bool

/-- The loop body of `filterScopesByPriority` (DejaDO.ts lines 105-118):
walk the priority list, return the set of scopes matching the first
priority entry that has any match. -/
def firstMatchingBucket (scopes : List String) : List String → Option (List String)
  | [] => none
  | p :: rest =>
    let ms := scopes.filter (fun s => strStartsWith s p)
    if ms.isEmpty then firstMatchingBucket scopes rest else some ms

/-- Scope resolver, translated from `filterScopesByPriority` in
DejaDO.ts: for each of the fixed priority entries `session:`,
`agent:`, `shared` in order, collect the requested scopes that start
with that entry and return the first non-empty collection; if none
matches, return `["shared"]` when `"shared"` was requested, else `[]`. -/
def filterScopesByPriority (scopes : List String) : List String :=
  match firstMatchingBucket scopes ["session:", "agent:", "shared"] with
  | some ms => ms
  | none => if scopes.contains "shared" then ["shared"] else []

/-- Contract of an ORDER-BY-less `SELECT ... LIMIT 1`: the query
returns some row of its result set when that set is non-empty and
nothing otherwise; which row it returns is engine- and index-dependent
and not guaranteed by the source, so it is kept abstract. -/
def PickSpec (pick : List Secret → Option Secret) : Prop :=
  ∀ l : List Secret, (∀ s, pick l = some s → s ∈ l) ∧ (pick l = none ↔ l = [])

/-- Secret lookup, translated from `getSecret` in DejaDO.ts: resolve the
scopes, return `null` when the resolution is empty, otherwise run one
record-store query for records with the given name and a scope in the
resolved set, `LIMIT 1` with no ORDER BY, and return the value of the
returned row.  Which row of the result set the unordered LIMIT-1 query
yields is modelled by the abstract `pick` parameter. -/
def getSecret (pick : List Secret → Option Secret) (secrets : List Secret)
    (scopes : List String) (name : String) : Option String :=
  let fs := filterScopesByPriority scopes
  if fs.isEmpty then none
  else (pick (secrets.filter (fun s => s.name == name && fs.contains s.scope))).map
    (fun s => s.value)

/-- The lookup described by the specification, stated from its words for
comparison with the source-translated getSecret: resolve the scopes,
then try each resolved scope in priority order and return the value
from the first scope holding a record keyed (name, scope). -/
def getSecretSpec (secrets : List Secret) (scopes : List String)
    (name : String) : Option String :=
  (filterScopesByPriority scopes).findSome? (fun sc =>
    (secrets.find? (fun s => s.name == name && s.scope == sc)).map
      (fun s => s.value))

/-- The secrets-table invariant enforced by the repository schema, where
`name` is the sole primary key of the secrets table: no two rows share
a name. -/
def UniqueNames (secrets : List Secret) : Prop :=
  secrets.Pairwise (fun a b => a.name ≠ b.name)

/-- Result of `deleteLearning`: the success flag it returns and the two
stores after the operation. -/
structure DeleteOut where
  success : Bool
  learnings : List Learning
  vectorIds : List String
  deriving Repr, DecidableEq

/-- Translation of `deleteLearning` in DejaDO.ts: delete the id from the
record store and from the vector index, and return `success: true`.
The source performs no existence check, so the flag is unconditional. -/
def deleteLearning (learnings : List Learning) (vectorIds : List String)
    (id : String) : DeleteOut :=
  ⟨true,
   learnings.filter (fun l => !(l.id == id)),
   vectorIds.filter (fun i => !(i == id))⟩

/-- Similarity score the vector index reported for a learning: the score
of the first match with the same id, defaulting to 0 (DejaDO.ts lines
322-323). -/
def scoreFor (ms : List VMatch) (l : Learning) : ℚ :=
  match ms.find? (fun m => m.id == l.id) with
  | some m => m.score
  | none => 0

/-- The record-store fetch shared by query and inject (DejaDO.ts lines
176-181): select learnings whose id is among the vector matches and
whose scope is among the resolved scopes, `LIMIT limit`.  The record
store is a list in row order, so the SQL LIMIT is `take`. -/
def retrieved (env : MemEnv) (fs : List String) (ms : List VMatch)
    (limit : Nat) : List Learning :=
  let ids := ms.map (fun m => m.id)
  (env.learnings.filter (fun l => ids.contains l.id && fs.contains l.scope)).take limit

/-- Per-scope hit counter built by query (DejaDO.ts lines 328-331). -/
def bumpScope (scope : String) : List (String × Nat) → List (String × Nat)
  | [] => [(scope, 1)]
  | (s, n) :: rest =>
    if s == scope then (s, n + 1) :: rest else (s, n) :: bumpScope scope rest

/-- Fold the hit counter over a result list. -/
def hitsOf (ls : List Learning) : List (String × Nat) :=
  ls.foldl (fun acc l => bumpScope l.scope acc) []

/-- Result of a query call, with instrumentation: how many embedding and
vector-index calls were made, and which scopes the record-store search
was filtered to. -/
structure QueryOut where
  learnings : List Learning
  hits : List (String × Nat)
  embedCalls : Nat
  vectorCalls : Nat
  dbScopes : List String

/-- Translation of `query` in DejaDO.ts (lines 282-338): resolve scopes
and return empty immediately when the resolution is empty; otherwise
embed the text, query the vector index with topK = limit * 2, return
empty when either call throws or yields no matches; otherwise fetch the
matching records restricted to the resolved scopes, and sort them by
descending vector similarity score.  A `none` from a collaborator models
a thrown error, which the source catches and turns into an empty
result. -/
def query (env : MemEnv) (scopes : List String) (text : String)
    (limit : Nat) : QueryOut :=
  let fs := filterScopesByPriority scopes
  if fs.isEmpty then ⟨[], [], 0, 0, []⟩
  else
    match env.embed text with
    | none => ⟨[], [], 1, 0, []⟩
    | some e =>
      match env.vquery e (limit * 2) with
      | none => ⟨[], [], 1, 1, []⟩
      | some ms =>
        if ms.isEmpty then ⟨[], [], 1, 1, []⟩
        else
          let sorted := List.insertionSort
            (fun a b => scoreFor ms b ≤ scoreFor ms a)
            (retrieved env fs ms limit)
          ⟨sorted, hitsOf sorted, 1, 1, fs⟩

/-- The match list a query or inject call obtains from its embedding and
vector-index calls ([] when either call fails). -/
def matchesOf (env : MemEnv) (text : String) (limit : Nat) : List VMatch :=
  match env.embed text with
  | none => []
  | some e =>
    match env.vquery e (limit * 2) with
    | none => []
    | some ms => ms

/-- Result of an inject call: the returned prompt and learnings, the
record store after the reinforcement writes, and instrumentation. -/
structure InjectOut where
  prompt : String
  learnings : List Learning
  dbAfter : List Learning
  embedCalls : Nat
  vectorCalls : Nat

/-- The reinforcement writes of inject (DejaDO.ts lines 186-195): every
returned learning gets its stored confidence increased by 0.1, with no
clamp.  A write whose failure is injected by the environment leaves its
row unchanged. -/
def applyBump (selIds : List String) (env : MemEnv) : List Learning :=
  env.learnings.map (fun l =>
    if selIds.contains l.id && !env.bumpFails l.id then
      { l with confidence := l.confidence + 0.1 }
    else l)

/-- Translation of `inject` in DejaDO.ts (lines 149-208): same retrieval
as query (without the sort), then the per-hit confidence bump awaited
before formatting; if any bump write fails, the surrounding catch
returns the empty result even though retrieval succeeded.  Formatting
follows lines 198-203. -/
def inject (env : MemEnv) (scopes : List String) (context : String)
    (limit : Nat) (format : String) : InjectOut :=
  let fs := filterScopesByPriority scopes
  if fs.isEmpty then ⟨"", [], env.learnings, 0, 0⟩
  else
    match env.embed context with
    | none => ⟨"", [], env.learnings, 1, 0⟩
    | some e =>
      match env.vquery e (limit * 2) with
      | none => ⟨"", [], env.learnings, 1, 1⟩
      | some ms =>
        if ms.isEmpty then ⟨"", [], env.learnings, 1, 1⟩
        else
          let sel := retrieved env fs ms limit
          let db2 := applyBump (sel.map (fun l => l.id)) env
          if sel.any (fun l => env.bumpFails l.id) then ⟨"", [], db2, 1, 1⟩
          else if format == "prompt" then
            ⟨String.intercalate "\n"
              (sel.map (fun l => "When " ++ l.trigger ++ ", " ++ l.learning)),
             sel, db2, 1, 1⟩
          else ⟨"", sel, db2, 1, 1⟩

/-- Result of a learn call: the record it returns (none models a thrown
error), the number of embedding calls, and the writes it performed on
the record store and the vector index. -/
structure LearnOut where
  returned : Option Learning
  embedCalls : Nat
  dbWrites : List Learning
  vecWrites : List String
  deriving Repr, DecidableEq

/-- Translation of `learn` in DejaDO.ts (lines 220-273): no validation
of any argument; compute the embedding of "When trigger, learning",
store the record (with the given confidence as is) in the record store,
insert it into the vector index, and return it.  The id and timestamp
generation are passed in as parameters. -/
def learn (env : MemEnv) (scope trig lrn : String) (conf : ℚ)
    (reason source : Option String) (id : String) (now : Int) : LearnOut :=
  match env.embed ("When " ++ trig ++ ", " ++ lrn) with
  | none => ⟨none, 1, [], []⟩
  | some e =>
    let nl : Learning := ⟨id, trig, lrn, reason, conf, source, scope, some e, now⟩
    ⟨some nl, 1, [nl], [id]⟩

/-- Result of the HTTP learn handler: status code, whether a record was
stored, and how many embedding calls were made. -/
structure HandleLearnOut where
  status : Nat
  stored : Bool
  embedCalls : Nat
  deriving Repr, DecidableEq

/-- Translation of the validation gate of `handleLearn` in the worker
revision of src/index.ts: reject with 400 when trigger or learning is
empty, or when the given confidence (default 1.0) lies outside [0, 1],
all before any embedding or write; otherwise embed and store. -/
def handleLearn (trig lrn : String) (confGiven : Option ℚ) : HandleLearnOut :=
  if trig == "" || lrn == "" then ⟨400, false, 0⟩
  else
    let conf := confGiven.getD 1
    if decide (conf < 0) || decide (1 < conf) then ⟨400, false, 0⟩
    else ⟨200, true, 1⟩

/-- Seven days in milliseconds, the retention threshold of cleanup.ts. -/
def weekMs : Int := 7 * 24 * 60 * 60 * 1000

/-- One day in milliseconds, used by the concrete retention fixtures. -/
def dayMs : Int := 86400000

/-- Result of a retention sweep: both stores afterwards, the deletion
count and the reason list. -/
structure CleanupOut where
  learnings : List Learning
  vectorIds : List String
  deleted : Nat
  reasons : List String

/-- Translation of `cleanup` in src/cleanup.ts: pass 1 deletes rows
matching `trigger LIKE 'session:%' AND created_at < now - 7 days` (note:
the SQL filters on the trigger column, not the scope column) and removes
the deleted ids from the vector index when any row matched; pass 2 then
deletes rows with confidence < 0.3 likewise.  The deletion count and
reasons accumulate over both passes. -/
def cleanup (now : Int) (learnings : List Learning) (vectorIds : List String) :
    CleanupOut :=
  let weekAgo := now - weekMs
  let staleTest := fun (l : Learning) =>
    strStartsWith l.trigger "session:" && decide (l.createdAt < weekAgo)
  let stale := learnings.filter staleTest
  let db1 := learnings.filter (fun l => !staleTest l)
  let vec1 := if stale.isEmpty then vectorIds
    else vectorIds.filter (fun i => !(stale.map (fun l => l.id)).contains i)
  let reasons1 : List String := if stale.isEmpty then []
    else [Nat.repr stale.length ++ " stale session entries"]
  let lowTest := fun (l : Learning) => decide (l.confidence < 0.3)
  let low := db1.filter lowTest
  let db2 := db1.filter (fun l => !lowTest l)
  let vec2 := if low.isEmpty then vec1
    else vec1.filter (fun i => !(low.map (fun l => l.id)).contains i)
  let reasons2 : List String := if low.isEmpty then []
    else [Nat.repr low.length ++ " low confidence entries"]
  ⟨db2, vec2, stale.length + low.length, reasons1 ++ reasons2⟩

/- Concrete fixtures used by the theorems below. -/

/-- An environment whose collaborators are never reached. -/
def envInert : MemEnv :=
  ⟨fun _ => none, fun _ _ => none, [], [], [], fun _ => false⟩

/-- Secret named K in scope session:s1. -/
def secretSession : Secret := ⟨"K", "sv", "session:s1", 0, 0⟩

/-- Secret named K in scope shared. -/
def secretShared : Secret := ⟨"K", "hv", "shared", 5, 5⟩

/-- A shared-scope learning used by the deleteLearning theorem. -/
def learningKept : Learning :=
  ⟨"L7", "deploying", "run dry-run first", none, 1, none, "shared", none, 0⟩

/-- A shared-scope learning with confidence 1, hit by inject. -/
def learningBase : Learning :=
  ⟨"L5", "deploying", "check the plan", none, 1, none, "shared", none, 0⟩

/-- An environment where inject retrieves learningBase and every
reinforcement write succeeds. -/
def envBump : MemEnv :=
  ⟨fun _ => some [1], fun _ _ => some [⟨"L5", 1⟩], [learningBase], [], ["L5"],
   fun _ => false⟩

/-- A shared-scope learning hit by inject in the write-failure fixture. -/
def learningHit : Learning :=
  ⟨"L6", "testing", "retry the request", none, 1, none, "shared", none, 0⟩

/-- An environment where inject retrieves learningHit but the
reinforcement write to it fails. -/
def envBumpFail : MemEnv :=
  ⟨fun _ => some [1], fun _ _ => some [⟨"L6", 1⟩], [learningHit], [], ["L6"],
   fun i => i == "L6"⟩

/-- An environment for learn whose embedding provider succeeds. -/
def envLearn : MemEnv :=
  ⟨fun _ => some [1], fun _ _ => none, [], [], [], fun _ => false⟩

/-- Learning in scope session:abc, created on day 1 (9 days before the
sweep at day 10, hence older than the 7-day threshold). -/
def sessionOld : Learning :=
  ⟨"A", "deploying", "run dry-run first", none, 1, none, "session:abc", none,
   1 * dayMs⟩

/-- Learning in scope session:abc, created on day 9 (1 day before the
sweep at day 10). -/
def sessionNew : Learning :=
  ⟨"B", "testing", "check twice", none, 1, none, "session:abc", none, 9 * dayMs⟩

/-- Learning in scope shared whose trigger happens to start with
"session:", created on day 1. -/
def sharedSessionTrigger : Learning :=
  ⟨"C", "session:cleanup runs", "watch the logs", none, 1, none, "shared", none,
   1 * dayMs⟩

/- Helper lemmas about the scope resolver. -/

theorem mem_firstMatchingBucket {scopes : List String} {s : String} :
    ∀ ps ms, firstMatchingBucket scopes ps = some ms → s ∈ ms → s ∈ scopes := by
  intro ps
  induction ps with
  | nil => intro ms h; simp [firstMatchingBucket] at h
  | cons p rest ih =>
    intro ms h hs
    simp only [firstMatchingBucket] at h
    split at h
    · exact ih ms h hs
    · cases h
      exact (List.mem_filter.mp hs).1

theorem mem_filterScopesByPriority {scopes : List String} {s : String}
    (h : s ∈ filterScopesByPriority scopes) : s ∈ scopes := by
  unfold filterScopesByPriority at h
  split at h
  · exact mem_firstMatchingBucket _ _ (by assumption) h
  · split at h
    · simp only [List.mem_singleton] at h
      subst h
      simpa using (by assumption : scopes.contains "shared" = true)
    · simp at h

/-- C2: for every scope list containing at least one entry starting with
"session:", the scope resolver returns exactly the session-prefixed
entries of the input, in input order, and nothing else; for the input
["shared"] it returns ["shared"]; for the empty input it returns []. -/
theorem resolver_session_bucket (scopes : List String)
    (h : ∃ s ∈ scopes, strStartsWith s "session:" = true) :
    filterScopesByPriority scopes
      = scopes.filter (fun s => strStartsWith s "session:") ∧
    filterScopesByPriority ["shared"] = ["shared"] ∧
    filterScopesByPriority ([] : List String) = [] := by
  refine ⟨?_, rfl, rfl⟩
  obtain ⟨s, hs, hp⟩ := h
  have hne : scopes.filter (fun s => strStartsWith s "session:") ≠ [] := by
    intro hnil
    have := List.filter_eq_nil_iff.mp hnil s hs
    simp [hp] at this
  have hemp : (scopes.filter (fun s => strStartsWith s "session:")).isEmpty = false :=
    List.isEmpty_eq_false.mpr hne
  simp only [filterScopesByPriority, firstMatchingBucket, hemp]
  rfl

/-- C2 witness: the resolver evaluated on ["session:abc", "shared"]. -/
theorem resolver_session_bucket_witness :
    filterScopesByPriority ["session:abc", "shared"]
      = (["session:abc", "shared"].filter (fun s => strStartsWith s "session:")) ∧
    filterScopesByPriority ["shared"] = ["shared"] ∧
    filterScopesByPriority ([] : List String) = [] :=
  resolver_session_bucket ["session:abc", "shared"]
    ⟨"session:abc", List.mem_cons_self _ _, by decide⟩

/-- C10: the lowest-priority bucket of the resolver matches by the
string prefix "shared", not exact equality: an input whose entries all
begin with "shared" and contain no session- or agent-prefixed entry is
returned verbatim; and whenever "shared" is contained in a list, the
shared-prefix bucket of that list is non-empty, so the exact-equality
fallback branch that returns ["shared"] can never be reached. -/
theorem resolver_shared_verbatim (scopes t : List String)
    (h1 : ∀ s ∈ scopes, strStartsWith s "shared" = true)
    (h2 : ∀ s ∈ scopes, strStartsWith s "session:" = false ∧
      strStartsWith s "agent:" = false) :
    filterScopesByPriority scopes = scopes ∧
    (t.contains "shared" = true →
      t.filter (fun s => strStartsWith s "shared") ≠ []) := by
  constructor
  · have hsess : scopes.filter (fun s => strStartsWith s "session:") = [] :=
      List.filter_eq_nil_iff.mpr (fun a ha => by simp [(h2 a ha).1])
    have hag : scopes.filter (fun s => strStartsWith s "agent:") = [] :=
      List.filter_eq_nil_iff.mpr (fun a ha => by simp [(h2 a ha).2])
    have hsh : scopes.filter (fun s => strStartsWith s "shared") = scopes :=
      List.filter_eq_self.mpr (fun a ha => by simp [h1 a ha])
    simp only [filterScopesByPriority, firstMatchingBucket, hsess, hag, hsh,
      List.isEmpty_nil]
    cases hsc : scopes with
    | nil => rfl
    | cons a as =>
      simp
  · intro ht
    have hmem : "shared" ∈ t := by simpa using ht
    have : "shared" ∈ t.filter (fun s => strStartsWith s "shared") :=
      List.mem_filter.mpr ⟨hmem, by decide⟩
    exact List.ne_nil_of_mem this

/-- C10 witness: ["shared-team"] resolves to itself, and a list
containing "shared" has a non-empty shared-prefix bucket. -/
theorem resolver_shared_verbatim_witness :
    filterScopesByPriority ["shared-team"] = ["shared-team"] ∧
    ["shared"].filter (fun s => strStartsWith s "shared") ≠ [] :=
  ⟨(resolver_shared_verbatim ["shared-team"] ["shared"]
      (by decide) (by decide)).1,
   (resolver_shared_verbatim ["shared-team"] ["shared"]
      (by decide) (by decide)).2 rfl⟩

theorem findSome_none_of_all :
    ∀ (fs : List String) (f : String → Option String),
      (∀ sc ∈ fs, f sc = none) → fs.findSome? f = none := by
  intro fs
  induction fs with
  | nil => intro f _; rfl
  | cons sc rest ih =>
    intro f h
    have h0 := h sc (List.mem_cons_self _ _)
    simp only [List.findSome?_cons, h0]
    exact ih f (fun x hx => h x (List.mem_cons_of_mem _ hx))

theorem findSome_some_of_uniform (v : String) :
    ∀ (fs : List String) (f : String → Option String),
      (∀ sc ∈ fs, f sc = none ∨ f sc = some v) →
      (∃ sc ∈ fs, f sc ≠ none) → fs.findSome? f = some v := by
  intro fs
  induction fs with
  | nil => intro f _ hex; simp at hex
  | cons sc rest ih =>
    intro f hall hex
    cases hf : f sc with
    | some w =>
      have h0 := hall sc (List.mem_cons_self _ _)
      rw [hf] at h0
      rcases h0 with h0 | h0
      · exact absurd h0 (by simp)
      · simp only [List.findSome?_cons, hf]
        exact h0
    | none =>
      have hex2 : ∃ x ∈ rest, f x ≠ none := by
        obtain ⟨x, hx, hfx⟩ := hex
        rcases List.mem_cons.mp hx with rfl | hx2
        · exact absurd hf hfx
        · exact ⟨x, hx2, hfx⟩
      simp only [List.findSome?_cons, hf]
      exact ih f (fun x hx => hall x (List.mem_cons_of_mem _ hx)) hex2

/-- C9: on every store satisfying the schema's primary-key invariant (at
most one secret per name) and for every row the ORDER-BY-less LIMIT-1
query may return, getSecret coincides with the first-match-wins linear
search over the priority-ordered resolved scope list that the claim
describes; and the session-beats-shared example holds for every
admissible row choice even without the invariant, because
["session:s1", "agent:a1", "shared"] resolves to ["session:s1"], which
excludes shared rows from the query entirely. -/
theorem getSecret_first_match_wins (pick : List Secret → Option Secret)
    (hpick : PickSpec pick) :
    (∀ (secrets : List Secret) (scopes : List String) (n : String),
      UniqueNames secrets →
      getSecret pick secrets scopes n = getSecretSpec secrets scopes n) ∧
    getSecret pick [secretShared, secretSession]
      ["session:s1", "agent:a1", "shared"] "K" = some "sv" ∧
    getSecret pick [secretSession, secretShared]
      ["session:s1", "agent:a1", "shared"] "K" = some "sv" := by
  have hpick1 : ∀ r : Secret, pick [r] = some r := by
    intro r
    obtain ⟨hmem, hnone⟩ := hpick [r]
    cases hp : pick [r] with
    | none =>
      have := hnone.mp hp
      simp at this
    | some s =>
      have hs := hmem s hp
      simp only [List.mem_singleton] at hs
      rw [hs]
  have hemp : (filterScopesByPriority ["session:s1", "agent:a1", "shared"]).isEmpty
      = false := rfl
  refine ⟨?_, ?_, ?_⟩
  · intro secrets scopes n huniq
    have hpw : secrets.Pairwise (fun a b => a.name ≠ b.name) := huniq
    by_cases hfs : (filterScopesByPriority scopes).isEmpty = true
    · have hnil : filterScopesByPriority scopes = [] := List.isEmpty_iff.mp hfs
      simp [getSecret, getSecretSpec, hfs, hnil]
    · simp only [getSecret, getSecretSpec]
      rw [if_neg hfs]
      cases hM : pick (secrets.filter
          (fun s => s.name == n && (filterScopesByPriority scopes).contains s.scope)) with
      | none =>
        have hMnil := ((hpick _).2).mp hM
        rw [Option.map_none']
        symm
        apply findSome_none_of_all
        intro sc hsc
        cases hf : secrets.find? (fun s => s.name == n && s.scope == sc) with
        | none => simp [hf]
        | some s =>
          exfalso
          have hps := List.find?_some hf
          have hsmem := List.mem_of_find?_eq_some hf
          simp only [Bool.and_eq_true, beq_iff_eq] at hps
          have hsM : s ∈ secrets.filter
              (fun s => s.name == n && (filterScopesByPriority scopes).contains s.scope) := by
            refine List.mem_filter.mpr ⟨hsmem, ?_⟩
            simp only [Bool.and_eq_true, beq_iff_eq]
            refine ⟨hps.1, ?_⟩
            rw [hps.2]
            simpa using hsc
          rw [hMnil] at hsM
          simp at hsM
      | some r =>
        have hrM := (hpick _).1 r hM
        have hrf := List.mem_filter.mp hrM
        obtain ⟨hrmem, hrp⟩ := hrf
        simp only [Bool.and_eq_true, beq_iff_eq] at hrp
        obtain ⟨hrn, hrc⟩ := hrp
        have hrsc : r.scope ∈ filterScopesByPriority scopes := by simpa using hrc
        rw [Option.map_some']
        symm
        apply findSome_some_of_uniform r.value
        · intro sc hsc
          cases hf : secrets.find? (fun s => s.name == n && s.scope == sc) with
          | none => left; simp [hf]
          | some s =>
            right
            have hps := List.find?_some hf
            have hsmem := List.mem_of_find?_eq_some hf
            simp only [Bool.and_eq_true, beq_iff_eq] at hps
            have hsym : Symmetric (fun a b : Secret => a.name ≠ b.name) :=
              fun _ _ h he => h he.symm
            have hsr : s = r := by
              by_contra hne
              exact (hpw.forall hsym hsmem hrmem hne) (hps.1.trans hrn.symm)
            simp [hf, hsr]
        · refine ⟨r.scope, hrsc, ?_⟩
          cases hf : secrets.find? (fun s => s.name == n && s.scope == r.scope) with
          | none =>
            exfalso
            have := List.find?_eq_none.mp hf r hrmem
            simp [hrn] at this
          | some s => simp [hf]
  · have hM1 : [secretShared, secretSession].filter
        (fun s => s.name == "K" &&
          (filterScopesByPriority ["session:s1", "agent:a1", "shared"]).contains s.scope)
      = [secretSession] := rfl
    simp only [getSecret, hM1, hemp, Bool.false_eq_true, if_false,
      hpick1 secretSession, Option.map_some']
    rfl
  · have hM2 : [secretSession, secretShared].filter
        (fun s => s.name == "K" &&
          (filterScopesByPriority ["session:s1", "agent:a1", "shared"]).contains s.scope)
      = [secretSession] := rfl
    simp only [getSecret, hM2, hemp, Bool.false_eq_true, if_false,
      hpick1 secretSession, Option.map_some']
    rfl

/-- C9 helper: returning the head of the result set is one admissible
row choice for an ORDER-BY-less LIMIT 1. -/
theorem head_pick_spec : PickSpec (fun l => l.head?) := by
  intro l
  constructor
  · intro s h
    cases l with
    | nil => simp at h
    | cons a as =>
      simp only [List.head?_cons, Option.some.injEq] at h
      rw [← h]
      exact List.mem_cons_self _ _
  · cases l <;> simp

/-- C9 witness: the theorem applied to the head row choice, a singleton
session store satisfying the unique-name invariant, and the two example
stores. -/
theorem getSecret_first_match_wins_witness :
    getSecret (fun l => l.head?) [secretSession]
      ["session:s1", "agent:a1", "shared"] "K"
      = getSecretSpec [secretSession] ["session:s1", "agent:a1", "shared"] "K" ∧
    getSecret (fun l => l.head?) [secretShared, secretSession]
      ["session:s1", "agent:a1", "shared"] "K" = some "sv" ∧
    getSecret (fun l => l.head?) [secretSession, secretShared]
      ["session:s1", "agent:a1", "shared"] "K" = some "sv" :=
  ⟨(getSecret_first_match_wins (fun l => l.head?) head_pick_spec).1
      [secretSession] ["session:s1", "agent:a1", "shared"] "K"
      (by simp [UniqueNames]),
   (getSecret_first_match_wins (fun l => l.head?) head_pick_spec).2.1,
   (getSecret_first_match_wins (fun l => l.head?) head_pick_spec).2.2⟩

/-- C7: deleteLearning never reports a not-found outcome: it returns
success unconditionally for every input, in particular on an id that
does not exist (where both stores are left unchanged); on an existing
id it removes the record from both the record store and the vector
index. -/
theorem deleteLearning_silently_succeeds :
    (∀ (ls : List Learning) (vs : List String) (i : String),
      (deleteLearning ls vs i).success = true) ∧
    deleteLearning [learningKept] ["L7"] "missing"
      = ⟨true, [learningKept], ["L7"]⟩ ∧
    deleteLearning [learningKept] ["L7"] "L7" = ⟨true, [], []⟩ :=
  ⟨fun _ _ _ => rfl, rfl, rfl⟩

/-- C3: a query or inject call whose scope list resolves to the empty
set returns an empty result with no embedding call and no vector-index
call; and every scope the record-store search of query is filtered to
is one of the requested scopes, never a broader set. -/
theorem empty_resolution_no_calls (env : MemEnv) (scopes : List String)
    (text ctx fmt : String) (limit : Nat) :
    (filterScopesByPriority scopes = [] →
      query env scopes text limit = ⟨[], [], 0, 0, []⟩ ∧
      inject env scopes ctx limit fmt = ⟨"", [], env.learnings, 0, 0⟩) ∧
    (∀ s ∈ (query env scopes text limit).dbScopes, s ∈ scopes) := by
  constructor
  · intro h
    constructor
    · simp [query, h]
    · simp [inject, h]
  · intro s hs
    simp only [query] at hs
    split at hs
    · simp at hs
    · split at hs
      · simp at hs
      · split at hs
        · simp at hs
        · split at hs
          · simp at hs
          · exact mem_filterScopesByPriority hs

/-- C3 witness: on the unresolvable scope list ["x"], query and inject
return empty results with zero collaborator calls. -/
theorem empty_resolution_no_calls_witness :
    query envInert ["x"] "t" 5 = ⟨[], [], 0, 0, []⟩ ∧
    inject envInert ["x"] "c" 5 "prompt" = ⟨"", [], [], 0, 0⟩ :=
  (empty_resolution_no_calls envInert ["x"] "t" "c" "prompt" 5).1 rfl

/-- C8: the learnings returned by query are ordered by non-increasing
vector similarity score, the score of a learning being the one the
vector index reported for its id (ties in any order). -/
theorem query_ranked_by_descending_score (env : MemEnv) (scopes : List String)
    (text : String) (limit : Nat) :
    (query env scopes text limit).learnings.Pairwise
      (fun a b => scoreFor (matchesOf env text limit) b
        ≤ scoreFor (matchesOf env text limit) a) := by
  simp only [query]
  split
  · simp
  · cases he : env.embed text with
    | none => simp [he]
    | some e =>
      simp only [he]
      cases hv : env.vquery e (limit * 2) with
      | none => simp [hv]
      | some ms =>
        simp only [hv]
        split
        · simp
        · have hms : matchesOf env text limit = ms := by
            simp [matchesOf, he, hv]
          rw [hms]
          haveI : IsTotal Learning (fun a b => scoreFor ms b ≤ scoreFor ms a) :=
            ⟨fun _ _ => le_total _ _⟩
          haveI : IsTrans Learning (fun a b => scoreFor ms b ≤ scoreFor ms a) :=
            ⟨fun _ _ _ h1 h2 => le_trans h2 h1⟩
          exact List.sorted_insertionSort _ _

/-- C4: learn performs no validation: on learn("shared", "x", "y", 1.5)
it computes an embedding, writes the record with the out-of-range
confidence 1.5 to both stores and returns it, with no validation error;
the HTTP-level handleLearn of the worker revision, by contrast, rejects
the same input with status 400 before any embedding or write. -/
theorem learn_accepts_out_of_range_confidence :
    (learn envLearn "shared" "x" "y" (1.5 : ℚ) none none "id1" 0).returned
      = some ⟨"id1", "x", "y", none, (1.5 : ℚ), none, "shared", some [1], 0⟩ ∧
    (learn envLearn "shared" "x" "y" (1.5 : ℚ) none none "id1" 0).embedCalls = 1 ∧
    (learn envLearn "shared" "x" "y" (1.5 : ℚ) none none "id1" 0).dbWrites
      = [⟨"id1", "x", "y", none, (1.5 : ℚ), none, "shared", some [1], 0⟩] ∧
    (learn envLearn "shared" "x" "y" (1.5 : ℚ) none none "id1" 0).vecWrites
      = ["id1"] ∧
    ¬ ((1.5 : ℚ) ≤ 1) ∧
    handleLearn "x" "y" (some (1.5 : ℚ)) = ⟨400, false, 0⟩ := by
  refine ⟨rfl, rfl, rfl, rfl, by norm_num, ?_⟩
  have h1 : ¬ ((1.5 : ℚ) < 0) := by norm_num
  have h2 : (1 : ℚ) < 1.5 := by norm_num
  simp [handleLearn, h1, h2]

/-- C5: the reinforcement write of inject does not clamp: a stored
learning with confidence 1 that is hit by inject ends with stored
confidence 1 + 0.1, which exceeds 1, violating the [0,1] invariant the
specification demands (min(1, confidence + increment)). -/
theorem inject_confidence_exceeds_one :
    ((inject envBump ["shared"] "ctx" 5 "prompt").dbAfter.map
      (fun l => l.confidence)) = [(1 : ℚ) + 0.1] ∧
    (1 : ℚ) + 0.1 > 1 :=
  ⟨rfl, by norm_num⟩

/-- C6 counterexample: in envBumpFail the retrieval of inject succeeds
with [learningHit], the reinforcement write to it fails, and inject
returns prompt "" and no learnings instead of the retrieved ones. -/
theorem inject_write_failure_drops_read :
    retrieved envBumpFail (filterScopesByPriority ["shared"])
      (matchesOf envBumpFail "ctx" 5) 5 = [learningHit] ∧
    (inject envBumpFail ["shared"] "ctx" 5 "prompt").learnings = [] ∧
    (inject envBumpFail ["shared"] "ctx" 5 "prompt").prompt = "" ∧
    [learningHit] ≠ ([] : List Learning) := by
  refine ⟨rfl, rfl, rfl, by simp⟩

/-- C6 (amended): when a reinforcement write of inject fails, the error
is swallowed by the surrounding catch, so the caller still receives a
result rather than an exception, but that result is empty (prompt ""
and no learnings) rather than the retrieved learnings. -/
theorem inject_swallows_bump_failure (env : MemEnv) (scopes : List String)
    (ctx fmt : String) (limit : Nat) (e : List ℚ) (ms : List VMatch)
    (he : env.embed ctx = some e)
    (hv : env.vquery e (limit * 2) = some ms)
    (hfail : (retrieved env (filterScopesByPriority scopes) ms limit).any
      (fun l => env.bumpFails l.id) = true) :
    (inject env scopes ctx limit fmt).prompt = "" ∧
    (inject env scopes ctx limit fmt).learnings = [] := by
  simp only [inject]
  split
  · exact ⟨rfl, rfl⟩
  · simp only [he, hv]
    split
    · exact ⟨rfl, rfl⟩
    · exact ⟨rfl, rfl⟩

/-- C6 witness: the amended theorem applied to envBumpFail. -/
theorem inject_swallows_bump_failure_witness :
    (inject envBumpFail ["shared"] "c2" 5 "learnings").prompt = "" ∧
    (inject envBumpFail ["shared"] "c2" 5 "learnings").learnings = [] :=
  inject_swallows_bump_failure envBumpFail ["shared"] "c2" "learnings" 5
    [1] [⟨"L6", 1⟩] rfl rfl rfl

/-- C1: pass 1 of the retention sweep filters on the trigger column, not
the scope column: of two learnings in scope session:abc created 8 days
apart (9 days and 1 day before a sweep at day 10), neither is deleted,
although the claim requires the older one to be gone; while a
shared-scope learning whose trigger starts with "session:" and is old
enough is deleted from both stores. -/
theorem cleanup_filters_trigger_not_scope :
    (cleanup (10 * dayMs) [sessionOld, sessionNew] ["A", "B"]).learnings
      = [sessionOld, sessionNew] ∧
    (cleanup (10 * dayMs) [sessionOld, sessionNew] ["A", "B"]).vectorIds
      = ["A", "B"] ∧
    (cleanup (10 * dayMs) [sessionOld, sessionNew] ["A", "B"]).deleted = 0 ∧
    (cleanup (10 * dayMs) [sharedSessionTrigger] ["C"]).learnings = [] ∧
    (cleanup (10 * dayMs) [sharedSessionTrigger] ["C"]).vectorIds = [] ∧
    (cleanup (10 * dayMs) [sharedSessionTrigger] ["C"]).deleted = 1 := by
  have hd : (decide ((1 : ℚ) < (0.3 : ℚ))) = false := by
    apply decide_eq_false
    norm_num
  have t1 : strStartsWith "deploying" "session:" = false := by decide
  have t2 : strStartsWith "testing" "session:" = false := by decide
  have t3 : strStartsWith "session:cleanup runs" "session:" = true := by decide
  have ti : ((1 : Int) * dayMs < 10 * dayMs - weekMs) = True := by
    norm_num [dayMs, weekMs]
  refine ⟨?_, ?_, ?_, ?_, ?_, ?_⟩ <;>
    simp [cleanup, sessionOld, sessionNew, sharedSessionTrigger, hd, t1, t2, t3,
      ti, dayMs, weekMs]

end Deja
